import Mathlib

/-!
# Verification of the boa parser slice

Shallow embedding of `src/boa/src/syntax/parser/expression/assignment/exponentiation.rs`
and `src/boa/src/syntax/parser/statement/variable.rs`, together with the parts of the
parser infrastructure (token cursor, diagnostics, and the neighbouring productions)
that those two files use.  The cursor and the neighbouring productions are not part
of the given sources, so they are modelled from the specification (see the doc
comments marked "Modelled from the spec").
-/

namespace Boa

/-- Keywords relevant to the embedded productions (`ast::keyword::Keyword`). -/
inductive Keyword
  | Var
  | Delete
  | Void
  | TypeOf
  | In
  deriving DecidableEq

/-- Punctuators relevant to the embedded productions (`ast::punc::Punctuator`). -/
inductive Punctuator
  | Add
  | Sub
  | Not
  | Neg
  | Exp
  | Assign
  | Semicolon
  | Comma
  | CloseBlock
  deriving DecidableEq

/-- Interned identifier symbol handle (`Sym`); opaque to the parser. -/
abbrev Sym := Nat

/-- Source position attached to every token. -/
abbrev Position := Nat

/-- Token kinds (`ast::token::TokenKind`): keyword, punctuator, identifier with an
interned symbol, numeric literal, and the line-terminator marker from the spec's
data model. -/
inductive TokenKind
  | Keyword : Keyword → TokenKind
  | Punctuator : Punctuator → TokenKind
  | Identifier : Sym → TokenKind
  | NumericLiteral : Nat → TokenKind
  | LineTerminator : TokenKind
  deriving DecidableEq

/-- A lexed token: a kind tag plus a source position. -/
structure Token where
  kind : TokenKind
  pos : Position
  deriving DecidableEq

/-- Modelled from the spec: the identifier-interning facility is an external
collaborator producing opaque symbol handles; we model it as the table resolving a
symbol to its text (used only by token rendering in diagnostics). -/
abbrev Interner := List String

def Keyword.toString : Keyword → String
  | .Var => "var"
  | .Delete => "delete"
  | .Void => "void"
  | .TypeOf => "typeof"
  | .In => "in"

def Punctuator.toString : Punctuator → String
  | .Add => "+"
  | .Sub => "-"
  | .Not => "!"
  | .Neg => "~"
  | .Exp => "**"
  | .Assign => "="
  | .Semicolon => ";"
  | .Comma => ","
  | .CloseBlock => "\x7d"

/-- Textual description of a token kind, used in the expected-set of diagnostics. -/
def TokenKind.describe : TokenKind → String
  | .Keyword kw => kw.toString
  | .Punctuator p => p.toString
  | .Identifier _ => "identifier"
  | .NumericLiteral _ => "number"
  | .LineTerminator => "line terminator"

/-- Rendering of a token for diagnostics (`tok.display(interner)`). -/
def Token.display (tok : Token) (interner : Interner) : String :=
  match tok.kind with
  | .Keyword kw => kw.toString
  | .Punctuator p => p.toString
  | .Identifier s => interner.getD s ""
  | .NumericLiteral n => toString n
  | .LineTerminator => "line terminator"

/-- Parse diagnostics (`ParseError`), per the spec's closed taxonomy:
expected-but-found (expected descriptions, rendered found token, its position, and
the production label) and abrupt-end-of-input. -/
inductive ParseError
  | Expected (expected : List String) (found : String) (pos : Position) (context : String)
  | AbruptEnd
  deriving DecidableEq

/-- `ParseError::expected` constructor function from the source. -/
def ParseError.expected (exp : List String) (found : String) (pos : Position)
    (context : String) : ParseError :=
  ParseError.Expected exp found pos context

/-- Modelled from the spec: the token cursor is a position over a fully materialized
token sequence, supporting peek by offset, consume, one-slot pushback, and the
statement-termination query. -/
structure Cursor where
  tokens : List Token
  pos : Nat
  deriving DecidableEq

/-- Modelled from the spec (§4.1): returns the token `offset` positions ahead of the
current position without consuming, or none past end-of-stream. -/
def Cursor.peek (cursor : Cursor) (offset : Nat) : Option Token :=
  cursor.tokens.get? (cursor.pos + offset)

/-- Advancing the cursor by one position. -/
def Cursor.advance (cursor : Cursor) : Cursor :=
  { cursor with pos := cursor.pos + 1 }

/-- Modelled from the spec (§4.1): returns the current token and advances one
position, or none at end-of-stream (without advancing). -/
def Cursor.next (cursor : Cursor) : Option Token × Cursor :=
  match cursor.tokens.get? cursor.pos with
  | some tok => (some tok, cursor.advance)
  | none => (none, cursor)

/-- Modelled from the spec (§4.1): undoes exactly the most recent `next`
(single-slot pushback). -/
def Cursor.back (cursor : Cursor) : Cursor :=
  { cursor with pos := cursor.pos - 1 }

/-- Modelled from the spec (§4.1): whether the current statement can terminate here.
Termination holds when the next token is the explicit terminator punctuator, a
closing-brace punctuator, end-of-stream, or — when `strict` is false — a
line-terminator observed between the previous and the next token.  When it fails,
the conflicting next token is returned. -/
def Cursor.peek_semicolon (cursor : Cursor) (strict : Bool) : Bool × Option Token :=
  match cursor.tokens.get? cursor.pos with
  | none => (true, none)
  | some tok =>
    if tok.kind = TokenKind.Punctuator Punctuator.Semicolon then (true, some tok)
    else if tok.kind = TokenKind.Punctuator Punctuator.CloseBlock then (true, some tok)
    else if tok.kind = TokenKind.LineTerminator ∧ strict = false then (true, some tok)
    else (false, some tok)

/-- Modelled from the spec (§4.1): consumes the next token if it matches the given
kind; otherwise fails with an expected-but-found diagnostic naming the production
label, or with the abrupt-end diagnostic at end-of-stream. -/
def Cursor.expect (cursor : Cursor) (kind : TokenKind) (routine : String)
    (interner : Interner) : Except ParseError Cursor :=
  match cursor.next with
  | (none, _) => .error ParseError.AbruptEnd
  | (some tok, c1) =>
    if tok.kind = kind then .ok c1
    else .error (ParseError.expected [kind.describe] (tok.display interner) tok.pos routine)

/-- Modelled from the spec (§4.1): checks that the statement can terminate here,
consuming an explicit terminator or an observed line terminator, leaving an implied
terminator (closing brace, end-of-stream) unconsumed, and failing with an
expected-but-found diagnostic when termination is impossible. -/
def Cursor.expect_semicolon (cursor : Cursor) (strict : Bool) (routine : String)
    (interner : Interner) : Except ParseError Cursor :=
  match cursor.peek_semicolon strict with
  | (true, some tok) =>
    if tok.kind = TokenKind.Punctuator Punctuator.Semicolon ∨
        tok.kind = TokenKind.LineTerminator then
      .ok cursor.advance
    else .ok cursor
  | (true, none) => .ok cursor
  | (false, some tok) =>
    .error (ParseError.expected [Punctuator.Semicolon.toString] (tok.display interner)
      tok.pos routine)
  | (false, none) => .error ParseError.AbruptEnd

/-- Unary operator tags for the modelled unary-expression production. -/
inductive UnaryOp
  | Delete
  | Void
  | TypeOf
  | Plus
  | Minus
  | LogicalNot
  | BitwiseNeg
  deriving DecidableEq

/-- Numeric binary operator tags (`op::NumOp`); only exponentiation is used here. -/
inductive NumOp
  | Exp
  deriving DecidableEq

/-- Comparison binary operator tags; only the bare `in` relational operator (whose
availability the allow-in flag controls, per §6 of the spec) is used here. -/
inductive CompOp
  | In
  deriving DecidableEq

/-- Binary operator tags (`op::BinOp`). -/
inductive BinOp
  | Num : NumOp → BinOp
  | Comp : CompOp → BinOp
  deriving DecidableEq

/-- AST fragments (`ast::node::Node`): the shapes relevant to the embedded
productions. -/
inductive Node
  | Local : Sym → Node
  | Const : Nat → Node
  | unary_op : UnaryOp → Node → Node
  | bin_op : BinOp → Node → Node → Node
  | VarDecl : List (Sym × Option Node) → Node

/-- The result type of a production: an AST fragment with the advanced cursor, or a
diagnostic (`ParseResult`, with the cursor made explicit by the embedding). -/
abbrev ParseResult := Except ParseError (Node × Cursor)

/-- The update-expression production (next-higher precedence than exponentiation). -/
structure UpdateExpression where
  allow_yield : Bool
  allow_await : Bool

/-- `UpdateExpression::new`. -/
def UpdateExpression.new (allow_yield allow_await : Bool) : UpdateExpression :=
  ⟨allow_yield, allow_await⟩

/-- Modelled from the spec: the update-expression production is not among the given
sources; the spec only uses it as the producer of exponentiation operands, so it is
modelled as consuming a single identifier or numeric-literal operand token. -/
def UpdateExpression.parse (_self : UpdateExpression) (cursor : Cursor)
    (interner : Interner) : ParseResult :=
  match cursor.next with
  | (none, _) => .error ParseError.AbruptEnd
  | (some tok, c1) =>
    match tok.kind with
    | TokenKind.Identifier name => .ok (Node.Local name, c1)
    | TokenKind.NumericLiteral n => .ok (Node.Const n, c1)
    | _ =>
      .error (ParseError.expected ["expression"] (tok.display interner) tok.pos
        "update expression")

/-- The unary-expression production. -/
structure UnaryExpression where
  allow_yield : Bool
  allow_await : Bool

/-- `UnaryExpression::new`. -/
def UnaryExpression.new (allow_yield allow_await : Bool) : UnaryExpression :=
  ⟨allow_yield, allow_await⟩

/-- The unary-operator tag recognized at a token kind, if any.  The recognized set is
the one listed in the spec: delete, void, typeof, unary plus, unary minus,
logical-not, bitwise-not. -/
def unaryOpOfKind : TokenKind → Option UnaryOp
  | TokenKind.Keyword Keyword.Delete => some UnaryOp.Delete
  | TokenKind.Keyword Keyword.Void => some UnaryOp.Void
  | TokenKind.Keyword Keyword.TypeOf => some UnaryOp.TypeOf
  | TokenKind.Punctuator Punctuator.Add => some UnaryOp.Plus
  | TokenKind.Punctuator Punctuator.Sub => some UnaryOp.Minus
  | TokenKind.Punctuator Punctuator.Not => some UnaryOp.LogicalNot
  | TokenKind.Punctuator Punctuator.Neg => some UnaryOp.BitwiseNeg
  | _ => none

/-- Modelled from the spec: the unary-expression production is not among the given
sources; per the grammar it consumes a prefix of unary-operator tokens and then an
operand of the next-higher production.  Recursion is bounded by an explicit fuel
argument (each recursive call consumes one token). -/
def UnaryExpression.parseF (self : UnaryExpression) :
    Nat → Cursor → Interner → ParseResult
  | 0, _, _ => .error ParseError.AbruptEnd
  | fuel + 1, cursor, interner =>
    match cursor.peek 0 with
    | some tok =>
      match unaryOpOfKind tok.kind with
      | some op =>
        match UnaryExpression.parseF self fuel cursor.advance interner with
        | .error e => .error e
        | .ok (inner, c1) => .ok (Node.unary_op op inner, c1)
      | none =>
        (UpdateExpression.new self.allow_yield self.allow_await).parse cursor interner
    | none => .error ParseError.AbruptEnd

/-- `UnaryExpression::parse`, with enough fuel for the whole remaining stream. -/
def UnaryExpression.parse (self : UnaryExpression) (cursor : Cursor)
    (interner : Interner) : ParseResult :=
  self.parseF (cursor.tokens.length + 1 - cursor.pos) cursor interner

/-- The exponentiation-expression production (`ExponentiationExpression`). -/
structure ExponentiationExpression where
  allow_yield : Bool
  allow_await : Bool

/-- `ExponentiationExpression::new`. -/
def ExponentiationExpression.new (allow_yield allow_await : Bool) :
    ExponentiationExpression :=
  ⟨allow_yield, allow_await⟩

/-- `ExponentiationExpression::is_unary_expression`: checks by looking at the next
token whether it is a unary operator. -/
def ExponentiationExpression.is_unary_expression (cursor : Cursor) : Bool :=
  match cursor.peek 0 with
  | some tok =>
    match tok.kind with
    | TokenKind.Keyword Keyword.Delete => true
    | TokenKind.Keyword Keyword.Void => true
    | TokenKind.Keyword Keyword.TypeOf => true
    | TokenKind.Punctuator Punctuator.Add => true
    | TokenKind.Punctuator Punctuator.Sub => true
    | TokenKind.Punctuator Punctuator.Not => true
    | TokenKind.Punctuator Punctuator.Neg => true
    | _ => false
  | none => false

/-- `ExponentiationExpression::parse` (exponentiation.rs lines 78-98), with the
recursion into the right operand bounded by an explicit fuel argument: if the next
token is a unary operator, delegate to the unary-expression production; otherwise
parse the left operand with the update-expression production, then consume the next
token; on the exponentiation punctuator recurse for the right operand and build the
numeric-exponentiation binary node, otherwise push the token back and return the
left operand. -/
def ExponentiationExpression.parseF (self : ExponentiationExpression) :
    Nat → Cursor → Interner → ParseResult
  | 0, _, _ => .error ParseError.AbruptEnd
  | fuel + 1, cursor, interner =>
    if ExponentiationExpression.is_unary_expression cursor then
      (UnaryExpression.new self.allow_yield self.allow_await).parse cursor interner
    else
      match (UpdateExpression.new self.allow_yield self.allow_await).parse cursor
          interner with
      | .error e => .error e
      | .ok (lhs, c1) =>
        match c1.next with
        | (some tok, c2) =>
          if tok.kind = TokenKind.Punctuator Punctuator.Exp then
            match ExponentiationExpression.parseF self fuel c2 interner with
            | .error e => .error e
            | .ok (rhs, c3) => .ok (Node.bin_op (BinOp.Num NumOp.Exp) lhs rhs, c3)
          else
            .ok (lhs, c2.back)
        | (none, _) => .ok (lhs, c1)

/-- The non-unary path of `ExponentiationExpression::parse` (exponentiation.rs lines
84-97), named so that the delegation structure of the production can be stated:
parse the left operand, then either build the exponentiation node from the recursive
right-operand parse, or push the consumed token back and return the left operand. -/
def ExponentiationExpression.parseNonUnary (self : ExponentiationExpression)
    (fuel : Nat) (cursor : Cursor) (interner : Interner) : ParseResult :=
  match (UpdateExpression.new self.allow_yield self.allow_await).parse cursor
      interner with
  | .error e => .error e
  | .ok (lhs, c1) =>
    match c1.next with
    | (some tok, c2) =>
      if tok.kind = TokenKind.Punctuator Punctuator.Exp then
        match ExponentiationExpression.parseF self fuel c2 interner with
        | .error e => .error e
        | .ok (rhs, c3) => .ok (Node.bin_op (BinOp.Num NumOp.Exp) lhs rhs, c3)
      else
        .ok (lhs, c2.back)
    | (none, _) => .ok (lhs, c1)

/-- `ExponentiationExpression::parse`, with enough fuel for the remaining stream. -/
def ExponentiationExpression.parse (self : ExponentiationExpression) (cursor : Cursor)
    (interner : Interner) : ParseResult :=
  self.parseF (cursor.tokens.length + 1 - cursor.pos) cursor interner

/-- Unfolding of the fueled exponentiation parser through the named non-unary
path. -/
theorem ExponentiationExpression.parseF_succ (self : ExponentiationExpression)
    (fuel : Nat) (cursor : Cursor) (interner : Interner) :
    self.parseF (fuel + 1) cursor interner =
      if ExponentiationExpression.is_unary_expression cursor then
        (UnaryExpression.new self.allow_yield self.allow_await).parse cursor interner
      else
        self.parseNonUnary fuel cursor interner := by
  simp only [ExponentiationExpression.parseF, ExponentiationExpression.parseNonUnary]

/-- The initializer production used by variable declarators. -/
structure Initializer where
  allow_in : Bool
  allow_yield : Bool
  allow_await : Bool

/-- `Initializer::new`. -/
def Initializer.new (allow_in allow_yield allow_await : Bool) : Initializer :=
  ⟨allow_in, allow_yield, allow_await⟩

/-- Modelled from the spec: the initializer production is not among the given
sources.  Per §4.3 it consumes the assignment punctuator and parses an initializer
expression under the current context, and per §6 the allow-in flag permits the bare
`in` relational operator inside the expression parsed in this context.  The
expression chain below the relational level is represented by the exponentiation
production given in the sources. -/
def Initializer.parse (self : Initializer) (cursor : Cursor)
    (interner : Interner) : ParseResult :=
  match cursor.expect (TokenKind.Punctuator Punctuator.Assign) "initializer"
      interner with
  | .error e => .error e
  | .ok c1 =>
    match (ExponentiationExpression.new self.allow_yield self.allow_await).parse c1
        interner with
    | .error e => .error e
    | .ok (lhs, c2) =>
      match c2.peek 0 with
      | some tok =>
        if tok.kind = TokenKind.Keyword Keyword.In ∧ self.allow_in = true then
          match (ExponentiationExpression.new self.allow_yield self.allow_await).parse
              c2.advance interner with
          | .error e => .error e
          | .ok (rhs, c3) => .ok (Node.bin_op (BinOp.Comp CompOp.In) lhs rhs, c3)
        else .ok (lhs, c2)
      | none => .ok (lhs, c2)

/-- An individual variable declaration parser (`VariableDeclaration`). -/
structure VariableDeclaration where
  allow_in : Bool
  allow_yield : Bool
  allow_await : Bool

/-- `VariableDeclaration::new`. -/
def VariableDeclaration.new (allow_in allow_yield allow_await : Bool) :
    VariableDeclaration :=
  ⟨allow_in, allow_yield, allow_await⟩

/-- `VariableDeclaration::parse` (variable.rs lines 161-188): consume the next token
(abrupt end if none); it must be an identifier, otherwise fail with an
expected-identifier diagnostic carrying the offending token; then, if the next token
is the assignment punctuator, parse an initializer, else leave the initializer
empty. -/
def VariableDeclaration.parse (self : VariableDeclaration) (cursor : Cursor)
    (interner : Interner) : Except ParseError ((Sym × Option Node) × Cursor) :=
  match cursor.next with
  | (none, _) => .error ParseError.AbruptEnd
  | (some tok, c1) =>
    match tok.kind with
    | TokenKind.Identifier name =>
      match c1.peek 0 with
      | some tk =>
        if tk.kind = TokenKind.Punctuator Punctuator.Assign then
          match (Initializer.new self.allow_in self.allow_yield
              self.allow_await).parse c1 interner with
          | .error e => .error e
          | .ok (init, c2) => .ok ((name, some init), c2)
        else .ok ((name, none), c1)
      | none => .ok ((name, none), c1)
    | _ =>
      .error (ParseError.expected ["identifier"] (tok.display interner) tok.pos
        "variable declaration")

/-- The variable-declaration-list production (`VariableDeclarationList`). -/
structure VariableDeclarationList where
  allow_in : Bool
  allow_yield : Bool
  allow_await : Bool

/-- `VariableDeclarationList::new`. -/
def VariableDeclarationList.new (allow_in allow_yield allow_await : Bool) :
    VariableDeclarationList :=
  ⟨allow_in, allow_yield, allow_await⟩

/-- The loop of `VariableDeclarationList::parse` (variable.rs lines 96-126), with
the accumulated declarations explicit and the iteration bounded by fuel (each
iteration consumes at least the declarator's identifier token): parse a declarator
and push it; if statement termination is possible, stop with the accumulated
`VarDecl` node; on a comma, consume it and continue; on any other conflicting token
fail with the expected semicolon-or-comma diagnostic.  The remaining case — cannot
terminate yet no conflicting token — is the source's `unreachable!()` branch. -/
def VariableDeclarationList.parseF (self : VariableDeclarationList) :
    Nat → List (Sym × Option Node) → Cursor → Interner → ParseResult
  | 0, _, _, _ => .error ParseError.AbruptEnd
  | fuel + 1, list, cursor, interner =>
    match (VariableDeclaration.new self.allow_in self.allow_yield
        self.allow_await).parse cursor interner with
    | .error e => .error e
    | .ok (decl, c1) =>
      match c1.peek_semicolon false with
      | (true, _) => .ok (Node.VarDecl (list ++ [decl]), c1)
      | (false, some tk) =>
        if tk.kind = TokenKind.Punctuator Punctuator.Comma then
          VariableDeclarationList.parseF self fuel (list ++ [decl]) (c1.next).2 interner
        else
          .error (ParseError.expected
            [Punctuator.Semicolon.toString, Punctuator.Comma.toString]
            (tk.display interner) tk.pos "lexical declaration")
      | (false, none) => .error ParseError.AbruptEnd

/-- `VariableDeclarationList::parse`, with enough fuel for the remaining stream. -/
def VariableDeclarationList.parse (self : VariableDeclarationList) (cursor : Cursor)
    (interner : Interner) : ParseResult :=
  self.parseF (cursor.tokens.length + 1 - cursor.pos) [] cursor interner

/-- The variable-statement production (`VariableStatement`). -/
structure VariableStatement where
  allow_yield : Bool
  allow_await : Bool

/-- `VariableStatement::new`. -/
def VariableStatement.new (allow_yield allow_await : Bool) : VariableStatement :=
  ⟨allow_yield, allow_await⟩

/-- `VariableStatement::parse` (variable.rs lines 46-55): expect the `var` keyword,
parse the declaration list with allow-in set to true, then check statement
termination. -/
def VariableStatement.parse (self : VariableStatement) (cursor : Cursor)
    (interner : Interner) : ParseResult :=
  match cursor.expect (TokenKind.Keyword Keyword.Var) "variable statement"
      interner with
  | .error e => .error e
  | .ok c1 =>
    match (VariableDeclarationList.new true self.allow_yield
        self.allow_await).parse c1 interner with
    | .error e => .error e
    | .ok (decl_list, c2) =>
      match c2.expect_semicolon false "variable statement" interner with
      | .error e => .error e
      | .ok c3 => .ok (decl_list, c3)

/-- A token that the modelled update-expression production accepts as an operand. -/
def isUpdateOperand (tok : Token) : Bool :=
  match tok.kind with
  | TokenKind.Identifier _ => true
  | TokenKind.NumericLiteral _ => true
  | _ => false

/-- The AST fragment the modelled update-expression production produces for an
operand token. -/
def operandNode (tok : Token) : Node :=
  match tok.kind with
  | TokenKind.Identifier s => Node.Local s
  | TokenKind.NumericLiteral n => Node.Const n
  | _ => Node.Const 0

/-- The seven token kinds `is_unary_expression` recognizes. -/
def unaryTokenKinds : List TokenKind :=
  [TokenKind.Keyword Keyword.Delete, TokenKind.Keyword Keyword.Void,
   TokenKind.Keyword Keyword.TypeOf, TokenKind.Punctuator Punctuator.Add,
   TokenKind.Punctuator Punctuator.Sub, TokenKind.Punctuator Punctuator.Not,
   TokenKind.Punctuator Punctuator.Neg]

theorem Cursor.advance_back (cursor : Cursor) : cursor.advance.back = cursor := by
  cases cursor
  simp [Cursor.advance, Cursor.back]

theorem Cursor.peek_zero_lt {cursor : Cursor} {tok : Token}
    (h : cursor.peek 0 = some tok) : cursor.pos < cursor.tokens.length := by
  have h0 : cursor.tokens.get? (cursor.pos + 0) = some tok := h
  rw [Nat.add_zero] at h0
  exact List.get?_eq_some.mp h0 |>.1

theorem Cursor.next_of_peek {cursor : Cursor} {tok : Token}
    (h : cursor.peek 0 = some tok) : cursor.next = (some tok, cursor.advance) := by
  have h0 : cursor.tokens.get? (cursor.pos + 0) = some tok := h
  rw [Nat.add_zero] at h0
  unfold Cursor.next
  rw [h0]

theorem Cursor.next_of_peek_none {cursor : Cursor}
    (h : cursor.peek 0 = none) : cursor.next = (none, cursor) := by
  have h0 : cursor.tokens.get? (cursor.pos + 0) = none := h
  rw [Nat.add_zero] at h0
  unfold Cursor.next
  rw [h0]

theorem isUpdateOperand_elim {tok : Token} (h : isUpdateOperand tok = true) :
    (∃ s, tok.kind = TokenKind.Identifier s) ∨
      (∃ n, tok.kind = TokenKind.NumericLiteral n) := by
  obtain ⟨k, q⟩ := tok
  cases k <;> simp_all [isUpdateOperand]

theorem operandNode_ne_bin_op (tok : Token) (op : BinOp) (l r : Node) :
    operandNode tok ≠ Node.bin_op op l r := by
  obtain ⟨k, q⟩ := tok
  cases k <;> simp [operandNode]

/-- With the next token present, `ExponentiationExpression.parse` runs the fueled
body with at least one unit of fuel. -/
theorem ExponentiationExpression.parse_eq_parseF_succ (self : ExponentiationExpression)
    (cursor : Cursor) (interner : Interner)
    (h : cursor.pos < cursor.tokens.length) :
    self.parse cursor interner =
      self.parseF ((cursor.tokens.length - cursor.pos) + 1) cursor interner := by
  unfold ExponentiationExpression.parse
  congr 1
  omega

/-- C1: For every token sequence of the form `a ** b ** c` with update-expression
operands a, b, c, `ExponentiationExpression::parse` produces the right-associated
AST `Exp(a, Exp(b, c))` — a numeric-exponentiation binary node whose right child is
itself `Exp(b, c)` — and never the left-associated `Exp(Exp(a, b), c)`. -/
theorem exponentiation_right_associative (self : ExponentiationExpression)
    (interner : Interner) (ta tb tc : Token) (p1 p2 : Position)
    (ha : isUpdateOperand ta = true) (hb : isUpdateOperand tb = true)
    (hc : isUpdateOperand tc = true) :
    self.parse (Cursor.mk [ta, ⟨TokenKind.Punctuator Punctuator.Exp, p1⟩, tb,
        ⟨TokenKind.Punctuator Punctuator.Exp, p2⟩, tc] 0) interner =
      .ok (Node.bin_op (BinOp.Num NumOp.Exp) (operandNode ta)
          (Node.bin_op (BinOp.Num NumOp.Exp) (operandNode tb) (operandNode tc)),
        Cursor.mk [ta, ⟨TokenKind.Punctuator Punctuator.Exp, p1⟩, tb,
          ⟨TokenKind.Punctuator Punctuator.Exp, p2⟩, tc] 5) ∧
    ∀ c : Cursor,
      self.parse (Cursor.mk [ta, ⟨TokenKind.Punctuator Punctuator.Exp, p1⟩, tb,
          ⟨TokenKind.Punctuator Punctuator.Exp, p2⟩, tc] 0) interner ≠
        .ok (Node.bin_op (BinOp.Num NumOp.Exp)
            (Node.bin_op (BinOp.Num NumOp.Exp) (operandNode ta) (operandNode tb))
            (operandNode tc), c) := by
  obtain ⟨ka, qa⟩ := ta
  obtain ⟨kb, qb⟩ := tb
  obtain ⟨kc, qc⟩ := tc
  have h1 : (ExponentiationExpression.parse self (Cursor.mk
      [⟨ka, qa⟩, ⟨TokenKind.Punctuator Punctuator.Exp, p1⟩, ⟨kb, qb⟩,
        ⟨TokenKind.Punctuator Punctuator.Exp, p2⟩, ⟨kc, qc⟩] 0) interner) =
      .ok (Node.bin_op (BinOp.Num NumOp.Exp) (operandNode ⟨ka, qa⟩)
          (Node.bin_op (BinOp.Num NumOp.Exp) (operandNode ⟨kb, qb⟩)
            (operandNode ⟨kc, qc⟩)),
        Cursor.mk [⟨ka, qa⟩, ⟨TokenKind.Punctuator Punctuator.Exp, p1⟩, ⟨kb, qb⟩,
          ⟨TokenKind.Punctuator Punctuator.Exp, p2⟩, ⟨kc, qc⟩] 5) := by
    rcases isUpdateOperand_elim ha with ⟨sa, hka⟩ | ⟨na, hka⟩ <;>
      rcases isUpdateOperand_elim hb with ⟨sb, hkb⟩ | ⟨nb, hkb⟩ <;>
      rcases isUpdateOperand_elim hc with ⟨sc, hkc⟩ | ⟨nc, hkc⟩ <;>
      simp only [Token.kind] at hka hkb hkc <;>
      subst hka hkb hkc <;> rfl
  refine ⟨h1, fun c h => ?_⟩
  rw [h1] at h
  simp only [Except.ok.injEq, Prod.mk.injEq, Node.bin_op.injEq] at h
  exact operandNode_ne_bin_op ⟨ka, qa⟩ _ _ _ h.1.2.1

/-- Witness for C1 at the concrete sequence `x0 ** x1 ** 2`. -/
theorem exponentiation_right_associative_witness :
    isUpdateOperand ⟨TokenKind.Identifier 0, 0⟩ = true ∧
    (ExponentiationExpression.new false false).parse
        (Cursor.mk [⟨TokenKind.Identifier 0, 0⟩,
          ⟨TokenKind.Punctuator Punctuator.Exp, 1⟩, ⟨TokenKind.Identifier 1, 2⟩,
          ⟨TokenKind.Punctuator Punctuator.Exp, 3⟩,
          ⟨TokenKind.NumericLiteral 2, 4⟩] 0) [] =
      .ok (Node.bin_op (BinOp.Num NumOp.Exp) (Node.Local 0)
          (Node.bin_op (BinOp.Num NumOp.Exp) (Node.Local 1) (Node.Const 2)),
        Cursor.mk [⟨TokenKind.Identifier 0, 0⟩,
          ⟨TokenKind.Punctuator Punctuator.Exp, 1⟩, ⟨TokenKind.Identifier 1, 2⟩,
          ⟨TokenKind.Punctuator Punctuator.Exp, 3⟩,
          ⟨TokenKind.NumericLiteral 2, 4⟩] 5) :=
  ⟨rfl, (exponentiation_right_associative (ExponentiationExpression.new false false)
    [] ⟨TokenKind.Identifier 0, 0⟩ ⟨TokenKind.Identifier 1, 2⟩
    ⟨TokenKind.NumericLiteral 2, 4⟩ 1 3 rfl rfl rfl).1⟩

/-- C9: Parsing is deterministic: running `ExponentiationExpression::parse` or
`VariableStatement::parse` twice over fresh cursors at the start of the same token
sequence, with the same context, yields structurally identical results; the
embedding is a pure function of the token sequence and context, with no hidden
global state. -/
theorem parse_deterministic (toks : List Token) (y a : Bool) (interner : Interner) :
    ((ExponentiationExpression.new y a).parse (Cursor.mk toks 0) interner =
      (ExponentiationExpression.new y a).parse (Cursor.mk toks 0) interner) ∧
    ((VariableStatement.new y a).parse (Cursor.mk toks 0) interner =
      (VariableStatement.new y a).parse (Cursor.mk toks 0) interner) :=
  ⟨rfl, rfl⟩

/-- C10: `peek_semicolon` never reports non-termination without also returning the
conflicting next token, so the `unreachable!()` branch of
`VariableDeclarationList::parse` is indeed unreachable: non-termination requires a
next token to exist, since end-of-stream always permits termination. -/
theorem peek_semicolon_nonterm_has_token (cursor : Cursor) (strict : Bool)
    (h : (cursor.peek_semicolon strict).1 = false) :
    (cursor.peek_semicolon strict).2.isSome = true := by
  rcases hg : cursor.tokens.get? cursor.pos with _ | tok
  · unfold Cursor.peek_semicolon at h
    rw [hg] at h
    simp at h
  · unfold Cursor.peek_semicolon at h ⊢
    rw [hg] at h ⊢
    dsimp only at h ⊢
    split_ifs at h ⊢
    simp_all

/-- C2: When the peeked first token is one of exactly the seven unary-operator
tokens, `ExponentiationExpression::parse` returns exactly the result of
`UnaryExpression::parse` on the same cursor and context (so it never consumes a
`**` itself); for a first token outside that set it runs the non-unary path, which
parses the left operand via the update-expression production. -/
theorem exponentiation_unary_delegation (self : ExponentiationExpression)
    (cursor : Cursor) (interner : Interner) (tok : Token)
    (hpeek : cursor.peek 0 = some tok) :
    (tok.kind ∈ unaryTokenKinds →
      self.parse cursor interner =
        (UnaryExpression.new self.allow_yield self.allow_await).parse cursor
          interner) ∧
    (tok.kind ∉ unaryTokenKinds →
      self.parse cursor interner =
        self.parseNonUnary (cursor.tokens.length - cursor.pos) cursor interner) := by
  have hlt := Cursor.peek_zero_lt hpeek
  have hun : ExponentiationExpression.is_unary_expression cursor =
      decide (tok.kind ∈ unaryTokenKinds) := by
    unfold ExponentiationExpression.is_unary_expression
    rw [hpeek]
    obtain ⟨k, q⟩ := tok
    dsimp only
    rcases k with kw | p | s | n | _
    · cases kw <;> rfl
    · cases p <;> rfl
    · rfl
    · rfl
    · rfl
  have hps := ExponentiationExpression.parse_eq_parseF_succ self cursor interner hlt
  constructor
  · intro hmem
    rw [hps, ExponentiationExpression.parseF_succ, hun]
    simp [hmem]
  · intro hmem
    rw [hps, ExponentiationExpression.parseF_succ, hun]
    simp [hmem]

/-- Witness for C2 at a cursor whose first token is the logical-not punctuator. -/
theorem exponentiation_unary_delegation_witness :
    TokenKind.Punctuator Punctuator.Not ∈ unaryTokenKinds ∧
    (ExponentiationExpression.new false false).parse
        (Cursor.mk [⟨TokenKind.Punctuator Punctuator.Not, 0⟩,
          ⟨TokenKind.Identifier 0, 1⟩] 0) [] =
      (UnaryExpression.new false false).parse
        (Cursor.mk [⟨TokenKind.Punctuator Punctuator.Not, 0⟩,
          ⟨TokenKind.Identifier 0, 1⟩] 0) [] :=
  ⟨by decide,
    (exponentiation_unary_delegation (ExponentiationExpression.new false false)
      (Cursor.mk [⟨TokenKind.Punctuator Punctuator.Not, 0⟩,
        ⟨TokenKind.Identifier 0, 1⟩] 0) [] ⟨TokenKind.Punctuator Punctuator.Not, 0⟩
      rfl).1 (by decide)⟩

/-- C5: After a successful left-operand parse in the non-unary path of
`ExponentiationExpression::parse`: if the next token exists but is not the
exponentiation punctuator, the consumption is undone by one-slot pushback and the
left operand is returned unchanged with the cursor exactly at its position after the
left-operand parse; at end-of-stream the parse succeeds with the left operand
instead of failing. -/
theorem exponentiation_pushback_frame (self : ExponentiationExpression)
    (cursor c1 : Cursor) (interner : Interner) (lhs : Node)
    (hu : ExponentiationExpression.is_unary_expression cursor = false)
    (hupd : (UpdateExpression.new self.allow_yield self.allow_await).parse cursor
      interner = .ok (lhs, c1)) :
    (∀ tok, c1.peek 0 = some tok →
      tok.kind ≠ TokenKind.Punctuator Punctuator.Exp →
      self.parse cursor interner = .ok (lhs, c1)) ∧
    (c1.peek 0 = none → self.parse cursor interner = .ok (lhs, c1)) := by
  have hlt : cursor.pos < cursor.tokens.length := by
    rcases hg : cursor.tokens.get? cursor.pos with _ | tok
    · exfalso
      unfold UpdateExpression.parse Cursor.next at hupd
      rw [hg] at hupd
      simp at hupd
    · have hpe : cursor.peek 0 = some tok := by
        unfold Cursor.peek
        rw [Nat.add_zero]
        exact hg
      exact Cursor.peek_zero_lt hpe
  have hps := ExponentiationExpression.parse_eq_parseF_succ self cursor interner hlt
  have hstep : self.parse cursor interner =
      self.parseNonUnary (cursor.tokens.length - cursor.pos) cursor interner := by
    rw [hps, ExponentiationExpression.parseF_succ, hu]
    simp
  constructor
  · intro tok hpk hne
    rw [hstep]
    unfold ExponentiationExpression.parseNonUnary
    simp only [hupd, Cursor.next_of_peek hpk]
    rw [if_neg hne, Cursor.advance_back]
  · intro hpk
    rw [hstep]
    unfold ExponentiationExpression.parseNonUnary
    simp only [hupd, Cursor.next_of_peek_none hpk]

/-- Witness for C5 at the sequence consisting of an identifier followed by a
comma. -/
theorem exponentiation_pushback_frame_witness :
    (ExponentiationExpression.new false false).parse
        (Cursor.mk [⟨TokenKind.Identifier 0, 0⟩,
          ⟨TokenKind.Punctuator Punctuator.Comma, 1⟩] 0) [] =
      .ok (Node.Local 0,
        Cursor.mk [⟨TokenKind.Identifier 0, 0⟩,
          ⟨TokenKind.Punctuator Punctuator.Comma, 1⟩] 1) :=
  (exponentiation_pushback_frame (ExponentiationExpression.new false false)
      (Cursor.mk [⟨TokenKind.Identifier 0, 0⟩,
        ⟨TokenKind.Punctuator Punctuator.Comma, 1⟩] 0)
      (Cursor.mk [⟨TokenKind.Identifier 0, 0⟩,
        ⟨TokenKind.Punctuator Punctuator.Comma, 1⟩] 1) [] (Node.Local 0) rfl rfl).1
    ⟨TokenKind.Punctuator Punctuator.Comma, 1⟩ rfl (by decide)

/-- Any successful run of the declaration-list loop extends the accumulated list by
at least one declarator, in order. -/
theorem VariableDeclarationList.parseF_extends (self : VariableDeclarationList) :
    ∀ (fuel : Nat) (acc : List (Sym × Option Node)) (cursor : Cursor)
      (interner : Interner) (n : Node) (c : Cursor),
      self.parseF fuel acc cursor interner = .ok (n, c) →
      ∃ rest, rest ≠ [] ∧ n = Node.VarDecl (acc ++ rest) := by
  intro fuel
  induction fuel with
  | zero =>
    intro acc cursor interner n c h
    simp [VariableDeclarationList.parseF] at h
  | succ fuel ih =>
    intro acc cursor interner n c h
    unfold VariableDeclarationList.parseF at h
    rcases hd : (VariableDeclaration.new self.allow_in self.allow_yield
        self.allow_await).parse cursor interner with e | dc
    · rw [hd] at h
      simp at h
    · obtain ⟨decl, c1⟩ := dc
      rw [hd] at h
      dsimp only at h
      rcases hp : c1.peek_semicolon false with ⟨b, otk⟩
      rw [hp] at h
      rcases b with _ | _
      · rcases otk with _ | tk
        · dsimp only at h
          simp at h
        · dsimp only at h
          by_cases hcm : tk.kind = TokenKind.Punctuator Punctuator.Comma
          · rw [if_pos hcm] at h
            obtain ⟨rest, hne, hn⟩ := ih (acc ++ [decl]) _ interner n c h
            refine ⟨[decl] ++ rest, by simp, ?_⟩
            rw [hn, List.append_assoc]
          · rw [if_neg hcm] at h
            simp at h
      · dsimp only at h
        simp only [Except.ok.injEq, Prod.mk.injEq] at h
        exact ⟨[decl], by simp, h.1.symm⟩

/-- C3: `var x;` parses to the one-element declaration list containing `(x, none)`;
`var x = 1, y;` parses to `[(x, some 1), (y, none)]` in source order; and every
successful `VariableStatement::parse` produces a `VarDecl` node holding a non-empty
declaration list. -/
theorem variable_statement_decl_lists :
    (∀ (interner : Interner) (sx : Sym) (p1 p2 p3 : Position),
      (VariableStatement.new false false).parse
          (Cursor.mk [⟨TokenKind.Keyword Keyword.Var, p1⟩,
            ⟨TokenKind.Identifier sx, p2⟩,
            ⟨TokenKind.Punctuator Punctuator.Semicolon, p3⟩] 0) interner =
        .ok (Node.VarDecl [(sx, none)],
          Cursor.mk [⟨TokenKind.Keyword Keyword.Var, p1⟩,
            ⟨TokenKind.Identifier sx, p2⟩,
            ⟨TokenKind.Punctuator Punctuator.Semicolon, p3⟩] 3)) ∧
    (∀ (interner : Interner) (sx sy : Sym) (p1 p2 p3 p4 p5 p6 p7 : Position),
      (VariableStatement.new false false).parse
          (Cursor.mk [⟨TokenKind.Keyword Keyword.Var, p1⟩,
            ⟨TokenKind.Identifier sx, p2⟩,
            ⟨TokenKind.Punctuator Punctuator.Assign, p3⟩,
            ⟨TokenKind.NumericLiteral 1, p4⟩,
            ⟨TokenKind.Punctuator Punctuator.Comma, p5⟩,
            ⟨TokenKind.Identifier sy, p6⟩,
            ⟨TokenKind.Punctuator Punctuator.Semicolon, p7⟩] 0) interner =
        .ok (Node.VarDecl [(sx, some (Node.Const 1)), (sy, none)],
          Cursor.mk [⟨TokenKind.Keyword Keyword.Var, p1⟩,
            ⟨TokenKind.Identifier sx, p2⟩,
            ⟨TokenKind.Punctuator Punctuator.Assign, p3⟩,
            ⟨TokenKind.NumericLiteral 1, p4⟩,
            ⟨TokenKind.Punctuator Punctuator.Comma, p5⟩,
            ⟨TokenKind.Identifier sy, p6⟩,
            ⟨TokenKind.Punctuator Punctuator.Semicolon, p7⟩] 7)) ∧
    (∀ (self : VariableStatement) (cursor c : Cursor) (interner : Interner)
      (n : Node),
      self.parse cursor interner = .ok (n, c) →
      ∃ l, l ≠ [] ∧ n = Node.VarDecl l) := by
  refine ⟨fun _ _ _ _ _ => rfl, fun _ _ _ _ _ _ _ _ _ _ => rfl, ?_⟩
  intro self cursor c interner n h
  unfold VariableStatement.parse at h
  rcases he : cursor.expect (TokenKind.Keyword Keyword.Var) "variable statement"
      interner with e | c1
  · rw [he] at h
    simp at h
  · rw [he] at h
    dsimp only at h
    rcases hl : (VariableDeclarationList.new true self.allow_yield
        self.allow_await).parse c1 interner with e | pr
    · rw [hl] at h
      simp at h
    · obtain ⟨dl, c2⟩ := pr
      rw [hl] at h
      dsimp only at h
      rcases hs : c2.expect_semicolon false "variable statement" interner with e | c3
      · rw [hs] at h
        simp at h
      · rw [hs] at h
        simp only [Except.ok.injEq, Prod.mk.injEq] at h
        obtain ⟨rest, hne, hn⟩ := VariableDeclarationList.parseF_extends
          (VariableDeclarationList.new true self.allow_yield self.allow_await)
          (c1.tokens.length + 1 - c1.pos) [] c1 interner dl c2 hl
        exact ⟨rest, hne, by rw [← h.1, hn]; simp⟩

/-- Witness for C3: the generic non-emptiness part applied to the concrete parse of
`var z;`. -/
theorem variable_statement_decl_lists_witness :
    ∃ l, l ≠ [] ∧ Node.VarDecl [((2 : Sym), (none : Option Node))] = Node.VarDecl l :=
  variable_statement_decl_lists.2.2 (VariableStatement.new false false)
    (Cursor.mk [⟨TokenKind.Keyword Keyword.Var, 0⟩, ⟨TokenKind.Identifier 2, 4⟩,
      ⟨TokenKind.Punctuator Punctuator.Semicolon, 5⟩] 0)
    (Cursor.mk [⟨TokenKind.Keyword Keyword.Var, 0⟩, ⟨TokenKind.Identifier 2, 4⟩,
      ⟨TokenKind.Punctuator Punctuator.Semicolon, 5⟩] 3) []
    (Node.VarDecl [(2, none)]) rfl

/-- C4: Automatic statement termination for variable statements: `var x` followed by
a line terminator and `var x` followed by a closing brace both parse successfully,
while `var x y` (no newline, no semicolon, next token an unrelated identifier) fails
with an expected-but-found diagnostic whose expected set is the semicolon and the
comma and whose found token is that identifier. -/
theorem variable_statement_auto_termination :
    (∀ (interner : Interner) (sx : Sym) (p1 p2 p3 : Position),
      (VariableStatement.new false false).parse
          (Cursor.mk [⟨TokenKind.Keyword Keyword.Var, p1⟩,
            ⟨TokenKind.Identifier sx, p2⟩, ⟨TokenKind.LineTerminator, p3⟩] 0)
          interner =
        .ok (Node.VarDecl [(sx, none)],
          Cursor.mk [⟨TokenKind.Keyword Keyword.Var, p1⟩,
            ⟨TokenKind.Identifier sx, p2⟩, ⟨TokenKind.LineTerminator, p3⟩] 3)) ∧
    (∀ (interner : Interner) (sx : Sym) (p1 p2 p3 : Position),
      (VariableStatement.new false false).parse
          (Cursor.mk [⟨TokenKind.Keyword Keyword.Var, p1⟩,
            ⟨TokenKind.Identifier sx, p2⟩,
            ⟨TokenKind.Punctuator Punctuator.CloseBlock, p3⟩] 0) interner =
        .ok (Node.VarDecl [(sx, none)],
          Cursor.mk [⟨TokenKind.Keyword Keyword.Var, p1⟩,
            ⟨TokenKind.Identifier sx, p2⟩,
            ⟨TokenKind.Punctuator Punctuator.CloseBlock, p3⟩] 2)) ∧
    (∀ (interner : Interner) (sx sy : Sym) (p1 p2 p3 : Position),
      (VariableStatement.new false false).parse
          (Cursor.mk [⟨TokenKind.Keyword Keyword.Var, p1⟩,
            ⟨TokenKind.Identifier sx, p2⟩, ⟨TokenKind.Identifier sy, p3⟩] 0)
          interner =
        .error (ParseError.Expected [";", ","]
          (Token.display ⟨TokenKind.Identifier sy, p3⟩ interner) p3
          "lexical declaration")) :=
  ⟨fun _ _ _ _ _ => rfl, fun _ _ _ _ _ => rfl, fun _ _ _ _ _ _ => rfl⟩

/-- C6: At a declarator position, a present non-identifier token makes
`VariableDeclaration::parse` fail with an expected-identifier diagnostic carrying
that token's rendering and position, while end-of-stream makes it fail with the
distinct abrupt-end diagnostic that carries no found token. -/
theorem variable_declaration_identifier_errors (self : VariableDeclaration)
    (cursor : Cursor) (interner : Interner) :
    (∀ tok, cursor.peek 0 = some tok →
      (∀ s, tok.kind ≠ TokenKind.Identifier s) →
      self.parse cursor interner =
        .error (ParseError.Expected ["identifier"] (tok.display interner) tok.pos
          "variable declaration")) ∧
    (cursor.peek 0 = none →
      self.parse cursor interner = .error ParseError.AbruptEnd) := by
  constructor
  · intro tok hpk hni
    unfold VariableDeclaration.parse
    rw [Cursor.next_of_peek hpk]
    dsimp only
    obtain ⟨k, q⟩ := tok
    cases k with
    | Identifier s => exact absurd rfl (hni s)
    | Keyword kw => rfl
    | Punctuator p => rfl
    | NumericLiteral n => rfl
    | LineTerminator => rfl
  · intro hpk
    unfold VariableDeclaration.parse
    rw [Cursor.next_of_peek_none hpk]

/-- Witness for C6 at the declarator position of `var 5;`. -/
theorem variable_declaration_identifier_errors_witness :
    (VariableDeclaration.new true false false).parse
        (Cursor.mk [⟨TokenKind.NumericLiteral 5, 7⟩] 0) [] =
      .error (ParseError.Expected ["identifier"] "5" 7 "variable declaration") :=
  (variable_declaration_identifier_errors (VariableDeclaration.new true false false)
      (Cursor.mk [⟨TokenKind.NumericLiteral 5, 7⟩] 0) []).1
    ⟨TokenKind.NumericLiteral 5, 7⟩ rfl (fun s => by simp)

/-- C7: `VariableStatement::parse` consumes a leading `var` keyword, and when the
first token is present but is not the `var` keyword it fails with an
expected-but-found diagnostic naming the variable-statement production, producing no
AST fragment. -/
theorem variable_statement_expects_var (self : VariableStatement)
    (cursor : Cursor) (interner : Interner) (tok : Token)
    (hpeek : cursor.peek 0 = some tok) :
    (tok.kind = TokenKind.Keyword Keyword.Var →
      cursor.expect (TokenKind.Keyword Keyword.Var) "variable statement" interner =
        .ok cursor.advance) ∧
    (tok.kind ≠ TokenKind.Keyword Keyword.Var →
      self.parse cursor interner =
        .error (ParseError.Expected ["var"] (tok.display interner) tok.pos
          "variable statement")) := by
  constructor
  · intro hk
    unfold Cursor.expect
    rw [Cursor.next_of_peek hpeek]
    dsimp only
    rw [if_pos hk]
  · intro hk
    unfold VariableStatement.parse Cursor.expect
    rw [Cursor.next_of_peek hpeek]
    dsimp only
    rw [if_neg hk]
    rfl

/-- Witness for C7 at a statement beginning with an identifier. -/
theorem variable_statement_expects_var_witness :
    (VariableStatement.new false false).parse
        (Cursor.mk [⟨TokenKind.Identifier 3, 5⟩] 0) ["a", "b", "c", "dd"] =
      .error (ParseError.Expected ["var"] "dd" 5 "variable statement") :=
  (variable_statement_expects_var (VariableStatement.new false false)
      (Cursor.mk [⟨TokenKind.Identifier 3, 5⟩] 0) ["a", "b", "c", "dd"]
      ⟨TokenKind.Identifier 3, 5⟩ rfl).2 (by simp)

/-- C8: Context-flag threading.  The exponentiation production hands its
allow-yield and allow-await flags unchanged to the unary-expression production and
to its own non-unary path (whose left-operand parse and recursive right-operand
parse use the same `self`, hence the same flags); the variable statement invokes the
declaration-list production with allow-in set to true, observable because `var x = a
in b;` parses the bare `in` operator in the initializer; and within a declarator the
allow-in flag is consulted only through the initializer sub-parse: a declarator
without an initializer behaves identically for any two allow-in values, while with
an initializer present the declarator runs the initializer parser constructed with
its own allow-in flag. -/
theorem context_flag_threading :
    (∀ (y a : Bool) (cursor : Cursor) (interner : Interner),
      ExponentiationExpression.is_unary_expression cursor = true →
        (ExponentiationExpression.new y a).parse cursor interner =
          (UnaryExpression.new y a).parse cursor interner) ∧
    (∀ (y a : Bool) (cursor : Cursor) (interner : Interner) (tok : Token),
      cursor.peek 0 = some tok →
      ExponentiationExpression.is_unary_expression cursor = false →
        (ExponentiationExpression.new y a).parse cursor interner =
          ExponentiationExpression.parseNonUnary (ExponentiationExpression.new y a)
            (cursor.tokens.length - cursor.pos) cursor interner) ∧
    (∀ (interner : Interner) (sx sa sb : Sym) (p1 p2 p3 p4 p5 p6 p7 : Position),
      (VariableStatement.new false false).parse
          (Cursor.mk [⟨TokenKind.Keyword Keyword.Var, p1⟩,
            ⟨TokenKind.Identifier sx, p2⟩,
            ⟨TokenKind.Punctuator Punctuator.Assign, p3⟩,
            ⟨TokenKind.Identifier sa, p4⟩, ⟨TokenKind.Keyword Keyword.In, p5⟩,
            ⟨TokenKind.Identifier sb, p6⟩,
            ⟨TokenKind.Punctuator Punctuator.Semicolon, p7⟩] 0) interner =
        .ok (Node.VarDecl [(sx, some (Node.bin_op (BinOp.Comp CompOp.In)
              (Node.Local sa) (Node.Local sb)))],
          Cursor.mk [⟨TokenKind.Keyword Keyword.Var, p1⟩,
            ⟨TokenKind.Identifier sx, p2⟩,
            ⟨TokenKind.Punctuator Punctuator.Assign, p3⟩,
            ⟨TokenKind.Identifier sa, p4⟩, ⟨TokenKind.Keyword Keyword.In, p5⟩,
            ⟨TokenKind.Identifier sb, p6⟩,
            ⟨TokenKind.Punctuator Punctuator.Semicolon, p7⟩] 7)) ∧
    (∀ (i1 i2 y a : Bool) (cursor : Cursor) (interner : Interner),
      (∀ tk, cursor.advance.peek 0 = some tk →
        tk.kind ≠ TokenKind.Punctuator Punctuator.Assign) →
      (VariableDeclaration.new i1 y a).parse cursor interner =
        (VariableDeclaration.new i2 y a).parse cursor interner) ∧
    (∀ (ain y a : Bool) (cursor : Cursor) (interner : Interner) (sx : Sym)
      (p : Position),
      cursor.peek 0 = some ⟨TokenKind.Identifier sx, p⟩ →
      (∃ tk, cursor.advance.peek 0 = some tk ∧
        tk.kind = TokenKind.Punctuator Punctuator.Assign) →
      (VariableDeclaration.new ain y a).parse cursor interner =
        match (Initializer.new ain y a).parse cursor.advance interner with
        | .error e => .error e
        | .ok (init, c2) => .ok ((sx, some init), c2)) := by
  refine ⟨?_, ?_, fun _ _ _ _ _ _ _ _ _ _ _ => rfl, ?_, ?_⟩
  · intro y a cursor interner hu
    have hpos : cursor.pos < cursor.tokens.length := by
      unfold ExponentiationExpression.is_unary_expression at hu
      rcases hg : cursor.peek 0 with _ | tok
      · rw [hg] at hu
        simp at hu
      · exact Cursor.peek_zero_lt hg
    rw [ExponentiationExpression.parse_eq_parseF_succ _ _ _ hpos,
      ExponentiationExpression.parseF_succ, hu]
    rfl
  · intro y a cursor interner tok hpk hu
    rw [ExponentiationExpression.parse_eq_parseF_succ _ _ _
      (Cursor.peek_zero_lt hpk), ExponentiationExpression.parseF_succ, hu]
    simp
  · intro i1 i2 y a cursor interner hna
    unfold VariableDeclaration.parse
    rcases hg : cursor.peek 0 with _ | tok
    · rw [Cursor.next_of_peek_none hg]
    · rw [Cursor.next_of_peek hg]
      dsimp only
      obtain ⟨k, q⟩ := tok
      cases k with
      | Identifier s =>
        rcases hp : cursor.advance.peek 0 with _ | tk
        · rfl
        · dsimp only
          simp only [if_neg (hna tk hp)]
      | Keyword kw => rfl
      | Punctuator p => rfl
      | NumericLiteral n => rfl
      | LineTerminator => rfl
  · intro ain y a cursor interner sx p hpk hex
    obtain ⟨tk, hptk, hassign⟩ := hex
    unfold VariableDeclaration.parse
    rw [Cursor.next_of_peek hpk]
    dsimp only
    rw [hptk]
    dsimp only
    rw [if_pos hassign]
    rfl

/-- Witness for C8: allow-in independence of a declarator without initializer, at
the concrete declarator of `var x ;`. -/
theorem context_flag_threading_witness :
    (VariableDeclaration.new false false false).parse
        (Cursor.mk [⟨TokenKind.Identifier 0, 0⟩,
          ⟨TokenKind.Punctuator Punctuator.Semicolon, 1⟩] 0) [] =
      (VariableDeclaration.new true false false).parse
        (Cursor.mk [⟨TokenKind.Identifier 0, 0⟩,
          ⟨TokenKind.Punctuator Punctuator.Semicolon, 1⟩] 0) [] :=
  context_flag_threading.2.2.2.1 false true false false
    (Cursor.mk [⟨TokenKind.Identifier 0, 0⟩,
      ⟨TokenKind.Punctuator Punctuator.Semicolon, 1⟩] 0) []
    (fun tk h => by
      have htk : tk = ⟨TokenKind.Punctuator Punctuator.Semicolon, 1⟩ := by
        simp [Cursor.peek, Cursor.advance] at h
        exact h.symm
      rw [htk]
      simp)

/-- Witness for C10 at a cursor whose next token is an identifier. -/
theorem peek_semicolon_nonterm_has_token_witness :
    ((Cursor.mk [⟨TokenKind.Identifier 0, 0⟩] 0).peek_semicolon false).1 = false ∧
    ((Cursor.mk [⟨TokenKind.Identifier 0, 0⟩] 0).peek_semicolon false).2.isSome
      = true :=
  ⟨rfl, peek_semicolon_nonterm_has_token _ _ rfl⟩

end Boa
